import Mathlib

/-!
Shallow embedding of the data-transformation pipeline of the FVT limits
dashboard (src/code.py).  A loaded table is a `List Row`; numeric values
(LIC, LSC and the derived Rango/Centro columns) are modelled as exact
rationals.  Each pandas operation of the source is translated to a Lean
function on lists, and the properties of the specification are proved
about those functions.
-/

/-- One row of the loaded table.  `base`/`var` are the two categorical
columns ("Base", "Variable"); `lic`/`lsc` the numeric limit columns
("LIC", "LSC"); `rango`/`centro` hold the derived columns ("Rango",
"Centro"), written by the derivation step; `extra` models any further
pass-through columns of the CSV. -/
structure Row where
  base : String
  var : String
  lic : Rat
  lsc : Rat
  rango : Rat
  centro : Rat
  extra : List (String × String)
deriving DecidableEq, Repr

/-- Lines 50-51: `df["Rango"] = df[col_lsc] - df[col_lic]` and
`df["Centro"] = (df[col_lsc] + df[col_lic]) / 2`, on one row. -/
def deriveRow (r : Row) : Row :=
  { r with rango := r.lsc - r.lic, centro := (r.lsc + r.lic) / 2 }

/-- The derivation step applied to the whole table (row-wise column
assignment in pandas). -/
def deriveTable (df : List Row) : List Row :=
  df.map deriveRow

/-- The filter predicate of lines 74-77:
`df[col_base].isin(bases_sel) & df[col_var].isin(vars_sel)`. -/
def filtPred (bases_sel vars_sel : List String) (r : Row) : Bool :=
  bases_sel.contains r.base && vars_sel.contains r.var

/-- Lines 74-77: `df_filt = df[df[col_base].isin(bases_sel) & df[col_var].isin(vars_sel)].copy()`. -/
def df_filt (df : List Row) (bases_sel vars_sel : List String) : List Row :=
  df.filter (filtPred bases_sel vars_sel)

/-- Line 89: `df_filt["Rango"] = df_filt[col_lsc] - df_filt[col_lic]`,
the recomputation of the Rango column on the filtered table. -/
def recomputeRango (df : List Row) : List Row :=
  df.map (fun r => { r with rango := r.lsc - r.lic })

/-- The filtered view the dashboard works with: derivation (lines 50-51),
then the filter (lines 74-77), then the Rango recomputation (line 89). -/
def pipelineFiltered (table : List Row) (bases_sel vars_sel : List String) : List Row :=
  recomputeRango (df_filt (deriveTable table) bases_sel vars_sel)

/-- `df_filt.loc[df_filt[c].idxmax()]`: pandas `idxmax` returns the label
of the FIRST row attaining the maximum of column `f`, in iteration
order. -/
def argmaxFirst (f : Row → Rat) : List Row → Option Row
  | [] => none
  | r :: rs =>
    match argmaxFirst f rs with
    | none => some r
    | some m => if f r < f m then some m else some r

/-- `df_filt.loc[df_filt[c].idxmin()]`: first row attaining the minimum. -/
def argminFirst (f : Row → Rat) : List Row → Option Row
  | [] => none
  | r :: rs =>
    match argminFirst f rs with
    | none => some r
    | some m => if f m < f r then some m else some r

/-- Line 92: `lic_max_row = df_filt.loc[df_filt[col_lic].idxmax()]`. -/
def lic_max_row (df : List Row) : Option Row := argmaxFirst Row.lic df

/-- Line 93: `lic_min_row = df_filt.loc[df_filt[col_lic].idxmin()]`. -/
def lic_min_row (df : List Row) : Option Row := argminFirst Row.lic df

/-- Line 96: `lsc_max_row = df_filt.loc[df_filt[col_lsc].idxmax()]`. -/
def lsc_max_row (df : List Row) : Option Row := argmaxFirst Row.lsc df

/-- Line 97: `lsc_min_row = df_filt.loc[df_filt[col_lsc].idxmin()]`. -/
def lsc_min_row (df : List Row) : Option Row := argminFirst Row.lsc df

/-- Arithmetic mean of a list of rationals (pandas `.mean()` on a
non-empty group). -/
def mean (xs : List Rat) : Rat :=
  xs.sum / (xs.length : Rat)

/-- The sorted list of distinct values of a categorical column: pandas
group-by / pivot keys are the distinct observed values in ascending
order. -/
def sortedDistinct (l : List String) : List String :=
  List.insertionSort (fun a b => a ≤ b) l.dedup

/-- One row of `df_vars` (lines 198-203): a variable together with the
mean LSC and mean LIC over the rows of that variable. -/
structure VarMeansRow where
  var : String
  lscMean : Rat
  licMean : Rat
deriving DecidableEq, Repr

/-- The group of rows of `df` belonging to variable `v`
(`df_filt.groupby(col_var)`). -/
def groupRows (df : List Row) (v : String) : List Row :=
  df.filter (fun r => r.var == v)

/-- Lines 198-203:
`df_vars = df_filt.groupby(col_var)[[col_lsc, col_lic]].mean().reset_index().sort_values(col_var)` —
one row per distinct variable, ascending, with the group means of LSC and
LIC. -/
def df_vars (df : List Row) : List VarMeansRow :=
  (sortedDistinct (df.map Row.var)).map (fun v =>
    ⟨v, mean ((groupRows df v).map Row.lsc), mean ((groupRows df v).map Row.lic)⟩)

/-- The group of rows of `df` with base `b` and variable `v` (one cell of
the pivot table). -/
def cellRows (df : List Row) (b v : String) : List Row :=
  df.filter (fun r => r.base == b && r.var == v)

/-- Lines 276-281:
`df_heat = df_filt.pivot_table(index=col_base, columns=col_var, values="Rango", aggfunc="mean")` —
rows indexed by the sorted distinct bases, columns by the sorted distinct
variables; a cell with no matching rows is NaN (modelled `none`), not
zero. -/
def df_heat (df : List Row) : List (String × List (String × Option Rat)) :=
  (sortedDistinct (df.map Row.base)).map (fun b =>
    (b, (sortedDistinct (df.map Row.var)).map (fun v =>
      (v, if (cellRows df b v).isEmpty then none
          else some (mean ((cellRows df b v).map Row.rango))))))

/-- One record of the long-format table produced by `melt`
(lines 158-163): `(Variable, Tipo_Limite, Valor)` where the limit kind is
the originating column name, "LIC" or "LSC". -/
structure MeltRow where
  var : String
  tipoLimite : String
  valor : Rat
deriving DecidableEq, Repr

/-- Lines 158-163: `df_base.melt(id_vars=[col_var], value_vars=[col_lic, col_lsc], ...)` —
pandas stacks all rows for the first value column, then all rows for the
second. -/
def df_melt (df_base : List Row) : List MeltRow :=
  df_base.map (fun r => ⟨r.var, "LIC", r.lic⟩) ++
    df_base.map (fun r => ⟨r.var, "LSC", r.lsc⟩)

/-- Outcome of Tab 1 (lines 145-189): either the guidance message of the
`else` branch (line 187, not exactly one base selected), or the inner
warning of line 155 (no rows for the selected base), or the grouped-bar
chart data built from the melted table. -/
inductive Tab1Output where
  | guidance
  | noDataForBase
  | chart (data : List MeltRow)
deriving DecidableEq, Repr

/-- Lines 148-189: the single-base gating.  `if len(bases_sel) == 1:` take
`base_seleccionada = bases_sel[0]`, restrict the filtered table to that
base (line 152), warn if empty (line 155), otherwise melt and chart;
`else:` show the guidance `st.info` (line 187). -/
def tab1 (filt : List Row) (bases_sel : List String) : Tab1Output :=
  match bases_sel with
  | [b] =>
    let d := filt.filter (fun r => r.base == b)
    if d.isEmpty then .noDataForBase else .chart (df_melt d)
  | _ => .guidance

/-- Everything the dashboard computes from a non-empty filtered table:
the four KPI extreme rows, the Tab-1 outcome, the per-variable means and
the heatmap matrix. -/
structure Aggregates where
  licMax : Option Row
  licMin : Option Row
  lscMax : Option Row
  lscMin : Option Row
  tab1Out : Tab1Output
  varsTable : List VarMeansRow
  heatTable : List (String × List (String × Option Rat))
deriving DecidableEq, Repr

/-- Result of one interaction cycle: either the `st.warning`/`st.stop` of
lines 79-81 (no aggregation attempted), or the rendered aggregates. -/
inductive RunResult where
  | stopped
  | rendered (a : Aggregates)
deriving DecidableEq, Repr

/-- The whole pipeline of one interaction cycle: derive (lines 50-51),
filter (lines 74-77), stop on empty (lines 79-81), recompute Rango
(line 89), then compute every aggregation of the script. -/
def runPipeline (table : List Row) (bases_sel vars_sel : List String) : RunResult :=
  let d := deriveTable table
  let filt := df_filt d bases_sel vars_sel
  if filt.isEmpty then .stopped
  else
    let f2 := recomputeRango filt
    .rendered ⟨lic_max_row f2, lic_min_row f2, lsc_max_row f2, lsc_min_row f2,
      tab1 f2 bases_sel, df_vars f2, df_heat f2⟩

/-! ### Helper lemmas -/

theorem filtPred_iff (bases_sel vars_sel : List String) (r : Row) :
    filtPred bases_sel vars_sel r = true ↔ r.base ∈ bases_sel ∧ r.var ∈ vars_sel := by
  simp [filtPred, List.contains]

theorem mem_df_filt {df : List Row} {bases_sel vars_sel : List String} {r : Row} :
    r ∈ df_filt df bases_sel vars_sel ↔ r ∈ df ∧ r.base ∈ bases_sel ∧ r.var ∈ vars_sel := by
  simp [df_filt, List.mem_filter, filtPred, List.contains]

theorem count_df_filt (df : List Row) (bases_sel vars_sel : List String) (r : Row) :
    (df_filt df bases_sel vars_sel).count r =
      if r.base ∈ bases_sel ∧ r.var ∈ vars_sel then df.count r else 0 := by
  by_cases h : r.base ∈ bases_sel ∧ r.var ∈ vars_sel
  · rw [if_pos h]
    exact List.count_filter ((filtPred_iff bases_sel vars_sel r).mpr h)
  · rw [if_neg h]
    exact List.count_eq_zero.mpr (fun hm => h (mem_df_filt.mp hm).2)

theorem deriveRow_idem (r : Row) : deriveRow (deriveRow r) = deriveRow r := rfl

theorem mem_deriveTable_fix {x : Row} {t : List Row} (h : x ∈ deriveTable t) :
    deriveRow x = x := by
  obtain ⟨y, _, rfl⟩ := List.mem_map.mp h
  exact deriveRow_idem y

/-! ### Claims -/

/-- C1: the filter step returns exactly the rows whose base is in the
selected-bases set and whose variable is in the selected-variables set;
membership is preserved exactly and multiplicities are neither dropped
nor duplicated (so a selection value absent from the table matches no
rows). -/
theorem C1_filter_exact (df : List Row) (bases_sel vars_sel : List String) (r : Row) :
    (r ∈ df_filt df bases_sel vars_sel ↔ r ∈ df ∧ r.base ∈ bases_sel ∧ r.var ∈ vars_sel)
    ∧ (df_filt df bases_sel vars_sel).count r =
        if r.base ∈ bases_sel ∧ r.var ∈ vars_sel then df.count r else 0 :=
  ⟨mem_df_filt, count_df_filt df bases_sel vars_sel r⟩

/-- C2: every row of the filtered view produced by the pipeline satisfies
`rango = lsc - lic` and `centro = (lsc + lic) / 2` exactly. -/
theorem C2_derived_arithmetic (table : List Row) (bases_sel vars_sel : List String) (r : Row)
    (h : r ∈ pipelineFiltered table bases_sel vars_sel) :
    r.rango = r.lsc - r.lic ∧ r.centro = (r.lsc + r.lic) / 2 := by
  simp only [pipelineFiltered, recomputeRango] at h
  obtain ⟨x, hx, rfl⟩ := List.mem_map.mp h
  have hx2 : x ∈ deriveTable table := List.mem_of_mem_filter hx
  obtain ⟨y, _, rfl⟩ := List.mem_map.mp hx2
  simp [deriveRow]

/-- Witness for C2 at a concrete one-row table. -/
theorem C2_witness :
    (⟨"A", "X", 10, 20, 10, 15, []⟩ : Row).rango
        = (⟨"A", "X", 10, 20, 10, 15, []⟩ : Row).lsc - (⟨"A", "X", 10, 20, 10, 15, []⟩ : Row).lic
    ∧ (⟨"A", "X", 10, 20, 10, 15, []⟩ : Row).centro
        = ((⟨"A", "X", 10, 20, 10, 15, []⟩ : Row).lsc
            + (⟨"A", "X", 10, 20, 10, 15, []⟩ : Row).lic) / 2 :=
  C2_derived_arithmetic [⟨"A", "X", 10, 20, 0, 0, []⟩] ["A"] ["X"] _ (by
    have hev : pipelineFiltered [⟨"A", "X", 10, 20, 0, 0, []⟩] ["A"] ["X"]
        = [⟨"A", "X", 10, 20, 10, 15, []⟩] := by
      norm_num [pipelineFiltered, recomputeRango, df_filt, deriveTable, deriveRow, filtPred]
    rw [hev]
    exact List.mem_singleton.mpr rfl)

/-- C8: the derivation step is idempotent, and re-applying it to the
filtered table leaves every row unchanged. -/
theorem C8_derivation_idempotent (table : List Row) (bases_sel vars_sel : List String) :
    deriveTable (deriveTable table) = deriveTable table
    ∧ deriveTable (df_filt (deriveTable table) bases_sel vars_sel)
        = df_filt (deriveTable table) bases_sel vars_sel := by
  constructor
  · simp [deriveTable, List.map_map, Function.comp_def, deriveRow_idem]
  · calc deriveTable (df_filt (deriveTable table) bases_sel vars_sel)
        = (df_filt (deriveTable table) bases_sel vars_sel).map id :=
          List.map_congr_left (fun r hr => mem_deriveTable_fix (List.mem_of_mem_filter hr))
      _ = df_filt (deriveTable table) bases_sel vars_sel := List.map_id _

/-- C10: the filter's output is an order-preserving subsequence of its
input, and every retained row is an unmodified row of the input table
(all columns, pass-through ones included, unchanged). -/
theorem C10_filter_subsequence (df : List Row) (bases_sel vars_sel : List String) :
    List.Sublist (df_filt df bases_sel vars_sel) df
    ∧ ∀ r ∈ df_filt df bases_sel vars_sel, r ∈ df :=
  ⟨List.filter_sublist df, fun _ hr => List.mem_of_mem_filter hr⟩

theorem mem_df_melt_tipo {l : List Row} {m : MeltRow} (h : m ∈ df_melt l) :
    m.tipoLimite = "LIC" ∨ m.tipoLimite = "LSC" := by
  rcases List.mem_append.mp h with h1 | h2
  · obtain ⟨r, _, rfl⟩ := List.mem_map.mp h1
    left
    rfl
  · obtain ⟨r, _, rfl⟩ := List.mem_map.mp h2
    right
    rfl

/-- C3: a selection whose intersection with the data is empty makes the
pipeline stop with the "no data" notice; no aggregation is computed for
that interaction cycle. -/
theorem C3_empty_selection_stops (table : List Row) (bases_sel vars_sel : List String)
    (h : ∀ r ∈ table, ¬(r.base ∈ bases_sel ∧ r.var ∈ vars_sel)) :
    runPipeline table bases_sel vars_sel = .stopped := by
  have hfilt : df_filt (deriveTable table) bases_sel vars_sel = [] := by
    rw [List.eq_nil_iff_forall_not_mem]
    intro x hx
    obtain ⟨hx1, hx2, hx3⟩ := mem_df_filt.mp hx
    obtain ⟨y, hy, rfl⟩ := List.mem_map.mp hx1
    exact h y hy ⟨hx2, hx3⟩
  simp [runPipeline, hfilt]

/-- Witness for C3: one row with base "A" against a selection of base
"B" only. -/
theorem C3_witness :
    (∀ r ∈ [(⟨"A", "X", 10, 20, 0, 0, []⟩ : Row)], ¬(r.base ∈ ["B"] ∧ r.var ∈ ["X"]))
    ∧ runPipeline [⟨"A", "X", 10, 20, 0, 0, []⟩] ["B"] ["X"] = .stopped :=
  ⟨by decide, C3_empty_selection_stops [⟨"A", "X", 10, 20, 0, 0, []⟩] ["B"] ["X"] (by decide)⟩

/-- C7: the wide-to-long reshape runs only when exactly one base is
selected; with 0 or 2-or-more selected bases Tab 1 shows the guidance
message and produces no chart data, and any produced chart datum carries
limit kind "LIC" or "LSC". -/
theorem C7_single_base_gating (filt : List Row) (bases_sel : List String) :
    (bases_sel.length ≠ 1 → tab1 filt bases_sel = .guidance)
    ∧ (∀ d, tab1 filt bases_sel = .chart d → bases_sel.length = 1)
    ∧ (∀ d, tab1 filt bases_sel = .chart d →
        ∀ m ∈ d, m.tipoLimite = "LIC" ∨ m.tipoLimite = "LSC") := by
  rcases bases_sel with _ | ⟨b, _ | ⟨b2, rest⟩⟩
  · exact ⟨fun _ => rfl, fun d hd => by simp [tab1] at hd, fun d hd => by simp [tab1] at hd⟩
  · refine ⟨fun hlen => absurd rfl hlen, fun d _ => rfl, fun d hd => ?_⟩
    simp only [tab1] at hd
    by_cases he : (filt.filter (fun r => r.base == b)).isEmpty
    · rw [if_pos he] at hd
      exact absurd hd (by simp)
    · rw [if_neg he] at hd
      obtain rfl : df_melt (filt.filter (fun r => r.base == b)) = d := by
        injection hd
      exact fun m hm => mem_df_melt_tipo hm
  · exact ⟨fun _ => rfl, fun d hd => by simp [tab1] at hd, fun d hd => by simp [tab1] at hd⟩

/-- Witness for C7: with two selected bases the guidance message is shown. -/
theorem C7_witness :
    (["A", "B"] : List String).length ≠ 1 ∧ tab1 [] ["A", "B"] = .guidance :=
  ⟨by decide, (C7_single_base_gating [] ["A", "B"]).1 (by decide)⟩

/-- C9: with exactly one selected base and a non-empty filtered table,
the rows of the filtered table matching that base are the whole filtered
table, so the inner empty-subset warning of the single-base chart path is
unreachable: the chart is always produced. -/
theorem C9_inner_warning_unreachable (table : List Row) (b : String) (vars_sel : List String)
    (h : df_filt (deriveTable table) [b] vars_sel ≠ []) :
    ((recomputeRango (df_filt (deriveTable table) [b] vars_sel)).filter
        (fun r => r.base == b)
      = recomputeRango (df_filt (deriveTable table) [b] vars_sel))
    ∧ tab1 (recomputeRango (df_filt (deriveTable table) [b] vars_sel)) [b]
        = .chart (df_melt (recomputeRango (df_filt (deriveTable table) [b] vars_sel))) := by
  have hall : ∀ r ∈ recomputeRango (df_filt (deriveTable table) [b] vars_sel),
      (r.base == b) = true := by
    intro r hr
    obtain ⟨x, hx, rfl⟩ := List.mem_map.mp hr
    have hb : x.base ∈ [b] := (mem_df_filt.mp hx).2.1
    simp only [List.mem_singleton] at hb
    simpa using hb
  have hfix : (recomputeRango (df_filt (deriveTable table) [b] vars_sel)).filter
      (fun r => r.base == b) = recomputeRango (df_filt (deriveTable table) [b] vars_sel) :=
    List.filter_eq_self.mpr hall
  have hne : recomputeRango (df_filt (deriveTable table) [b] vars_sel) ≠ [] := by
    intro hc
    exact h (List.map_eq_nil_iff.mp hc)
  refine ⟨hfix, ?_⟩
  simp only [tab1, hfix]
  rw [if_neg (by simpa [List.isEmpty_iff] using hne)]

/-- Witness for C9 at a concrete one-row table with its own base
selected. -/
theorem C9_witness :
    df_filt (deriveTable [⟨"A", "X", 10, 20, 0, 0, []⟩]) ["A"] ["X"] ≠ []
    ∧ tab1 (recomputeRango (df_filt (deriveTable [⟨"A", "X", 10, 20, 0, 0, []⟩]) ["A"] ["X"])) ["A"]
        = .chart (df_melt (recomputeRango
            (df_filt (deriveTable [⟨"A", "X", 10, 20, 0, 0, []⟩]) ["A"] ["X"]))) := by
  have hne : df_filt (deriveTable [⟨"A", "X", 10, 20, 0, 0, []⟩]) ["A"] ["X"] ≠ [] := by
    simp [df_filt, deriveTable, deriveRow, filtPred, List.contains]
  exact ⟨hne, (C9_inner_warning_unreachable [⟨"A", "X", 10, 20, 0, 0, []⟩] "A" ["X"] hne).2⟩

theorem sortedDistinct_sorted (l : List String) :
    List.Sorted (fun a b => a ≤ b) (sortedDistinct l) :=
  List.sorted_insertionSort _ _

theorem sortedDistinct_nodup (l : List String) : (sortedDistinct l).Nodup :=
  ((List.perm_insertionSort _ _).nodup_iff).mpr (List.nodup_dedup l)

theorem mem_sortedDistinct {l : List String} {v : String} :
    v ∈ sortedDistinct l ↔ v ∈ l := by
  simp [sortedDistinct, List.mem_insertionSort, List.mem_dedup]

theorem argmaxFirst_spec (f : Row → Rat) :
    ∀ df : List Row, df ≠ [] →
      ∃ l1 r l2, df = l1 ++ r :: l2 ∧ argmaxFirst f df = some r
        ∧ (∀ s ∈ l1, f s < f r) ∧ (∀ s ∈ l2, f s ≤ f r)
  | [], h => absurd rfl h
  | r :: rs, _ => by
    rcases eq_or_ne rs [] with hnil | hne
    · subst hnil
      exact ⟨[], r, [], rfl, rfl, by simp, by simp⟩
    · obtain ⟨l1, m, l2, heq, hm, h1, h2⟩ := argmaxFirst_spec f rs hne
      by_cases hc : f r < f m
      · refine ⟨r :: l1, m, l2, by rw [heq, List.cons_append], ?_, ?_, h2⟩
        · simp only [argmaxFirst, hm]
          rw [if_pos hc]
        · intro s hs
          rcases List.mem_cons.mp hs with rfl | hs'
          · exact hc
          · exact h1 s hs'
      · have hle : f m ≤ f r := not_lt.mp hc
        refine ⟨[], r, rs, rfl, ?_, by simp, ?_⟩
        · simp only [argmaxFirst, hm]
          rw [if_neg hc]
        · intro s hs
          rw [heq] at hs
          rcases List.mem_append.mp hs with hs1 | hs2
          · exact le_of_lt (lt_of_lt_of_le (h1 s hs1) hle)
          · rcases List.mem_cons.mp hs2 with rfl | hs3
            · exact hle
            · exact le_trans (h2 s hs3) hle

theorem argminFirst_spec (f : Row → Rat) :
    ∀ df : List Row, df ≠ [] →
      ∃ l1 r l2, df = l1 ++ r :: l2 ∧ argminFirst f df = some r
        ∧ (∀ s ∈ l1, f r < f s) ∧ (∀ s ∈ l2, f r ≤ f s)
  | [], h => absurd rfl h
  | r :: rs, _ => by
    rcases eq_or_ne rs [] with hnil | hne
    · subst hnil
      exact ⟨[], r, [], rfl, rfl, by simp, by simp⟩
    · obtain ⟨l1, m, l2, heq, hm, h1, h2⟩ := argminFirst_spec f rs hne
      by_cases hc : f m < f r
      · refine ⟨r :: l1, m, l2, by rw [heq, List.cons_append], ?_, ?_, h2⟩
        · simp only [argminFirst, hm]
          rw [if_pos hc]
        · intro s hs
          rcases List.mem_cons.mp hs with rfl | hs'
          · exact hc
          · exact h1 s hs'
      · have hle : f r ≤ f m := not_lt.mp hc
        refine ⟨[], r, rs, rfl, ?_, by simp, ?_⟩
        · simp only [argminFirst, hm]
          rw [if_neg hc]
        · intro s hs
          rw [heq] at hs
          rcases List.mem_append.mp hs with hs1 | hs2
          · exact le_of_lt (lt_of_le_of_lt hle (h1 s hs1))
          · rcases List.mem_cons.mp hs2 with rfl | hs3
            · exact hle
            · exact le_trans hle (h2 s hs3)

/-- C5: each of the four extreme lookups returns the full row (value with
its base and variable) of the first row, in table order, attaining the
extreme: every earlier row is strictly beaten, every later row is at most
tied. -/
theorem C5_extremes_first_occurrence (df : List Row) (h : df ≠ []) :
    (∃ l1 r l2, df = l1 ++ r :: l2 ∧ lic_max_row df = some r
      ∧ (∀ s ∈ l1, s.lic < r.lic) ∧ (∀ s ∈ l2, s.lic ≤ r.lic))
    ∧ (∃ l1 r l2, df = l1 ++ r :: l2 ∧ lic_min_row df = some r
      ∧ (∀ s ∈ l1, r.lic < s.lic) ∧ (∀ s ∈ l2, r.lic ≤ s.lic))
    ∧ (∃ l1 r l2, df = l1 ++ r :: l2 ∧ lsc_max_row df = some r
      ∧ (∀ s ∈ l1, s.lsc < r.lsc) ∧ (∀ s ∈ l2, s.lsc ≤ r.lsc))
    ∧ (∃ l1 r l2, df = l1 ++ r :: l2 ∧ lsc_min_row df = some r
      ∧ (∀ s ∈ l1, r.lsc < s.lsc) ∧ (∀ s ∈ l2, r.lsc ≤ s.lsc)) :=
  ⟨argmaxFirst_spec Row.lic df h, argminFirst_spec Row.lic df h,
    argmaxFirst_spec Row.lsc df h, argminFirst_spec Row.lsc df h⟩

/-- Witness for C5 on the tie-break example: two rows share the maximum
LIC 10 and the first one, `("A", "X")`, is reported. -/
theorem C5_witness :
    ([⟨"A", "X", 10, 20, 0, 0, []⟩, ⟨"B", "Y", 10, 21, 0, 0, []⟩] : List Row) ≠ []
    ∧ lic_max_row [⟨"A", "X", 10, 20, 0, 0, []⟩, ⟨"B", "Y", 10, 21, 0, 0, []⟩]
        = some ⟨"A", "X", 10, 20, 0, 0, []⟩
    ∧ (∃ l1 r l2,
        ([⟨"A", "X", 10, 20, 0, 0, []⟩, ⟨"B", "Y", 10, 21, 0, 0, []⟩] : List Row)
          = l1 ++ r :: l2
        ∧ lic_max_row [⟨"A", "X", 10, 20, 0, 0, []⟩, ⟨"B", "Y", 10, 21, 0, 0, []⟩] = some r
        ∧ (∀ s ∈ l1, s.lic < r.lic) ∧ (∀ s ∈ l2, s.lic ≤ r.lic)) :=
  ⟨by simp,
    by norm_num [lic_max_row, argmaxFirst],
    (C5_extremes_first_occurrence
      [⟨"A", "X", 10, 20, 0, 0, []⟩, ⟨"B", "Y", 10, 21, 0, 0, []⟩] (by simp)).1⟩

/-- C4: `df_vars` has exactly one row per distinct variable of the
filtered table, ordered ascending with no duplicates, and each row holds
the arithmetic means of LIC and LSC over all rows of that variable, base
ignored. -/
theorem C4_per_variable_means (df : List Row) :
    ((df_vars df).map VarMeansRow.var = sortedDistinct (df.map Row.var))
    ∧ List.Sorted (fun a b => a ≤ b) ((df_vars df).map VarMeansRow.var)
    ∧ ((df_vars df).map VarMeansRow.var).Nodup
    ∧ (∀ v, v ∈ (df_vars df).map VarMeansRow.var ↔ ∃ r, r ∈ df ∧ r.var = v)
    ∧ ∀ e ∈ df_vars df,
        e.licMean = mean ((df.filter (fun r => r.var == e.var)).map Row.lic)
        ∧ e.lscMean = mean ((df.filter (fun r => r.var == e.var)).map Row.lsc) := by
  have hmap : (df_vars df).map VarMeansRow.var = sortedDistinct (df.map Row.var) := by
    simp [df_vars, List.map_map, Function.comp_def]
  refine ⟨hmap, ?_, ?_, ?_, ?_⟩
  · rw [hmap]
    exact sortedDistinct_sorted _
  · rw [hmap]
    exact sortedDistinct_nodup _
  · intro v
    rw [hmap, mem_sortedDistinct]
    exact List.mem_map
  · intro e he
    obtain ⟨v, hv, rfl⟩ := List.mem_map.mp he
    exact ⟨rfl, rfl⟩

/-- Witness for C4 on the aggregation-correctness example: rows
`(A, X, 10, 20)` and `(B, X, 14, 22)` yield mean LIC 12 and mean LSC 21
for variable "X". -/
theorem C4_witness :
    ((⟨"X", 21, 12⟩ : VarMeansRow)
        ∈ df_vars [⟨"A", "X", 10, 20, 0, 0, []⟩, ⟨"B", "X", 14, 22, 0, 0, []⟩])
    ∧ ((⟨"X", 21, 12⟩ : VarMeansRow).licMean
          = mean ((([⟨"A", "X", 10, 20, 0, 0, []⟩, ⟨"B", "X", 14, 22, 0, 0, []⟩] : List Row).filter
              (fun r => r.var == (⟨"X", 21, 12⟩ : VarMeansRow).var)).map Row.lic)
        ∧ (⟨"X", 21, 12⟩ : VarMeansRow).lscMean
          = mean ((([⟨"A", "X", 10, 20, 0, 0, []⟩, ⟨"B", "X", 14, 22, 0, 0, []⟩] : List Row).filter
              (fun r => r.var == (⟨"X", 21, 12⟩ : VarMeansRow).var)).map Row.lsc)) := by
  have hmem : (⟨"X", 21, 12⟩ : VarMeansRow)
      ∈ df_vars [⟨"A", "X", 10, 20, 0, 0, []⟩, ⟨"B", "X", 14, 22, 0, 0, []⟩] := by
    have hev : df_vars [⟨"A", "X", 10, 20, 0, 0, []⟩, ⟨"B", "X", 14, 22, 0, 0, []⟩]
        = [⟨"X", 21, 12⟩] := by
      norm_num [df_vars, sortedDistinct, groupRows, mean]
    rw [hev]
    exact List.mem_singleton.mpr rfl
  exact ⟨hmem,
    (C4_per_variable_means [⟨"A", "X", 10, 20, 0, 0, []⟩, ⟨"B", "X", 14, 22, 0, 0, []⟩]).2.2.2.2
      _ hmem⟩

/-- C6: the heatmap matrix has one row per distinct base and one column
per distinct variable of the filtered table, both axes sorted ascending
without duplicates; a cell holds the mean Rango of its (base, variable)
group when the group is non-empty and is an empty cell (not zero)
otherwise. -/
theorem C6_heatmap_matrix (df : List Row) :
    ((df_heat df).map Prod.fst = sortedDistinct (df.map Row.base))
    ∧ List.Sorted (fun a b => a ≤ b) ((df_heat df).map Prod.fst)
    ∧ ((df_heat df).map Prod.fst).Nodup
    ∧ ∀ p ∈ df_heat df,
        (p.2.map Prod.fst = sortedDistinct (df.map Row.var))
        ∧ List.Sorted (fun a b => a ≤ b) (p.2.map Prod.fst)
        ∧ (p.2.map Prod.fst).Nodup
        ∧ ∀ q ∈ p.2,
            (q.2 = none ↔ cellRows df p.1 q.1 = [])
            ∧ ∀ mv, q.2 = some mv → mv = mean ((cellRows df p.1 q.1).map Row.rango) := by
  have hmap : (df_heat df).map Prod.fst = sortedDistinct (df.map Row.base) := by
    simp [df_heat, List.map_map, Function.comp_def]
  refine ⟨hmap, by rw [hmap]; exact sortedDistinct_sorted _,
    by rw [hmap]; exact sortedDistinct_nodup _, ?_⟩
  intro p hp
  obtain ⟨b, hb, rfl⟩ := List.mem_map.mp hp
  have hcols : (List.map (fun v =>
      (v, if (cellRows df b v).isEmpty then none
          else some (mean ((cellRows df b v).map Row.rango))))
        (sortedDistinct (df.map Row.var))).map Prod.fst
      = sortedDistinct (df.map Row.var) := by
    simp [List.map_map, Function.comp_def]
  refine ⟨hcols, by rw [hcols]; exact sortedDistinct_sorted _,
    by rw [hcols]; exact sortedDistinct_nodup _, ?_⟩
  intro q hq
  obtain ⟨v, hv, rfl⟩ := List.mem_map.mp hq
  by_cases he : (cellRows df b v).isEmpty
  · rw [if_pos he]
    exact ⟨by simpa [List.isEmpty_iff] using he, fun mv hmv => by simp at hmv⟩
  · rw [if_neg he]
    refine ⟨?_, fun mv hmv => by injection hmv with h; exact h.symm⟩
    simp only [List.isEmpty_iff] at he
    simp [he]

/-- Witness for C6 at a one-cell table: two rows of base "A" and
variable "X" with Rango 3 and 5 give the single cell mean 4. -/
theorem C6_witness :
    (("A", [("X", some (4 : Rat))])
        ∈ df_heat [⟨"A", "X", 10, 13, 3, 0, []⟩, ⟨"A", "X", 10, 15, 5, 0, []⟩])
    ∧ (("X", some (4 : Rat)) ∈ [("X", some (4 : Rat))])
    ∧ ((some (4 : Rat) = none
          ↔ cellRows [⟨"A", "X", 10, 13, 3, 0, []⟩, ⟨"A", "X", 10, 15, 5, 0, []⟩] "A" "X" = [])
        ∧ ∀ mv, some (4 : Rat) = some mv →
            mv = mean ((cellRows [⟨"A", "X", 10, 13, 3, 0, []⟩, ⟨"A", "X", 10, 15, 5, 0, []⟩]
              "A" "X").map Row.rango)) := by
  have hev : df_heat [⟨"A", "X", 10, 13, 3, 0, []⟩, ⟨"A", "X", 10, 15, 5, 0, []⟩]
      = [("A", [("X", some (4 : Rat))])] := by
    norm_num [df_heat, sortedDistinct, cellRows, mean]
  have hp : ("A", [("X", some (4 : Rat))])
      ∈ df_heat [⟨"A", "X", 10, 13, 3, 0, []⟩, ⟨"A", "X", 10, 15, 5, 0, []⟩] := by
    rw [hev]
    exact List.mem_singleton.mpr rfl
  have hq : ("X", some (4 : Rat)) ∈ [("X", some (4 : Rat))] := List.mem_singleton.mpr rfl
  exact ⟨hp, hq,
    (C6_heatmap_matrix [⟨"A", "X", 10, 13, 3, 0, []⟩, ⟨"A", "X", 10, 15, 5, 0, []⟩]).2.2.2
      _ hp |>.2.2.2 _ hq⟩

/-- Witness for C1 at a concrete table, selection and row. -/
theorem C1_witness :
    ((⟨"A", "X", 10, 20, 0, 0, []⟩ : Row)
        ∈ df_filt [⟨"A", "X", 10, 20, 0, 0, []⟩] ["A"] ["X"]
      ↔ (⟨"A", "X", 10, 20, 0, 0, []⟩ : Row) ∈ [(⟨"A", "X", 10, 20, 0, 0, []⟩ : Row)]
        ∧ (⟨"A", "X", 10, 20, 0, 0, []⟩ : Row).base ∈ ["A"]
        ∧ (⟨"A", "X", 10, 20, 0, 0, []⟩ : Row).var ∈ ["X"])
    ∧ (df_filt [⟨"A", "X", 10, 20, 0, 0, []⟩] ["A"] ["X"]).count ⟨"A", "X", 10, 20, 0, 0, []⟩
        = if (⟨"A", "X", 10, 20, 0, 0, []⟩ : Row).base ∈ ["A"]
              ∧ (⟨"A", "X", 10, 20, 0, 0, []⟩ : Row).var ∈ ["X"]
          then ([(⟨"A", "X", 10, 20, 0, 0, []⟩ : Row)]).count ⟨"A", "X", 10, 20, 0, 0, []⟩
          else 0 :=
  C1_filter_exact [⟨"A", "X", 10, 20, 0, 0, []⟩] ["A"] ["X"] ⟨"A", "X", 10, 20, 0, 0, []⟩

/-- Witness for C8 at a concrete table and selection. -/
theorem C8_witness :
    deriveTable (deriveTable [⟨"A", "X", 10, 20, 0, 0, []⟩])
        = deriveTable [⟨"A", "X", 10, 20, 0, 0, []⟩]
    ∧ deriveTable (df_filt (deriveTable [⟨"A", "X", 10, 20, 0, 0, []⟩]) ["A"] ["X"])
        = df_filt (deriveTable [⟨"A", "X", 10, 20, 0, 0, []⟩]) ["A"] ["X"] :=
  C8_derivation_idempotent [⟨"A", "X", 10, 20, 0, 0, []⟩] ["A"] ["X"]

/-- Witness for C10 at a concrete table and selection. -/
theorem C10_witness :
    List.Sublist (df_filt [⟨"A", "X", 10, 20, 0, 0, []⟩] ["A"] ["X"])
        [⟨"A", "X", 10, 20, 0, 0, []⟩]
    ∧ (⟨"A", "X", 10, 20, 0, 0, []⟩ : Row) ∈ [(⟨"A", "X", 10, 20, 0, 0, []⟩ : Row)] :=
  ⟨(C10_filter_subsequence [⟨"A", "X", 10, 20, 0, 0, []⟩] ["A"] ["X"]).1,
    (C10_filter_subsequence [⟨"A", "X", 10, 20, 0, 0, []⟩] ["A"] ["X"]).2 _
      (by simp [df_filt, filtPred, List.contains])⟩
